import Mathlib

/-
Verification development for the wiresum entry classification and
synchronization pipeline.

The definitions below are a shallow embedding of the repository's Python
source:
  * `PyVal`, `jsonDecode`, `stripFence`, `classifyFields`,
    `parse_classification_response` embed
    `wiresum/classifier.py::parse_classification_response` together with the
    dynamic (Python) semantics it relies on (dict.get, truthiness, the
    `or` operator, str/list duck typing, exceptions).
  * `format_entry_for_classification` embeds the entry formatting code.
  * `Row`, `upsert_entry`, `get_unprocessed_entries`,
    `update_entry_classification`, `clear_entry_classification`,
    `update_entry_content`, `mark_entry_read`, `requeue_entries` embed the
    SQL statements of `wiresum/db.py` over a list-of-rows store.
    Timestamps (ISO-8601 TEXT columns compared with SQL `>=`, i.e. a linear
    order) are modelled as `Nat`.
  * `process_unclassified_entries` and `reprocess_entry` embed the batch
    driver of `wiresum/classifier.py` and the reprocess route of
    `wiresum/server.py`; the oracle call (`classify_entry`'s network and
    enrichment steps) is abstracted as a function returning either an
    outcome or a raised exception message.
-/

namespace Wiresum

/-! ## Python value model

A model of the Python values produced by `json.loads`, together with the
pieces of dynamic semantics that `parse_classification_response` uses.
JSON numbers are modelled as integers only; no fractional literals occur in
any property considered here. -/

inductive PyVal where
  | null : PyVal
  | bool (b : Bool) : PyVal
  | num (n : Int) : PyVal
  | str (s : String) : PyVal
  | arr (xs : List PyVal) : PyVal
  | obj (kvs : List (String × PyVal)) : PyVal

/-- Python truthiness of a JSON-decoded value (`bool(x)` / `if x:`). -/
def truthy : PyVal → Bool
  | .null => false
  | .bool b => b
  | .num n => n != 0
  | .str s => !s.data.isEmpty
  | .arr xs => !xs.isEmpty
  | .obj kvs => !kvs.isEmpty

/-- Python `dict.get`: for an object decoded from JSON, a repeated key keeps
the last binding, so lookup prefers the last matching pair. -/
def pyGet (kvs : List (String × PyVal)) (k : String) : Option PyVal :=
  match kvs with
  | [] => none
  | (k2, v) :: rest =>
    match pyGet rest k with
    | some w => some w
    | none => if k2 = k then some v else none

/-- Python `str()` of a scalar; containers are rendered repr-style (their
exact text is irrelevant to every property proved below). -/
def pyStr : PyVal → String
  | .str s => s
  | .num n => toString n
  | .bool b => if b then "True" else "False"
  | .null => "None"
  | .arr _ => "[...]"
  | .obj _ => "\x7b...\x7d"

/-! ## JSON decoding (model of `json.loads`) -/

def jsonWs (c : Char) : Bool :=
  c = ' ' || c = '\t' || c = '\n' || c = '\r'

def hexVal (c : Char) : Option Nat :=
  if '0' ≤ c ∧ c ≤ '9' then some (c.toNat - '0'.toNat)
  else if 'a' ≤ c ∧ c ≤ 'f' then some (c.toNat - 'a'.toNat + 10)
  else if 'A' ≤ c ∧ c ≤ 'F' then some (c.toNat - 'A'.toNat + 10)
  else none

/-- Decode the body of a JSON string after the opening quote; returns the
decoded characters and the remainder after the closing quote. -/
def decStr : List Char → Except String (List Char × List Char)
  | [] => .error "Unterminated string"
  | c :: rest =>
    if c = '"' then .ok ([], rest)
    else if c = '\\' then
      match rest with
      | [] => .error "Unterminated string"
      | e :: rest2 =>
        if e = 'u' then
          match rest2 with
          | a :: b :: c2 :: d :: rest3 =>
            match hexVal a, hexVal b, hexVal c2, hexVal d with
            | some x1, some x2, some x3, some x4 =>
              match decStr rest3 with
              | .ok (cs, rem) =>
                .ok (Char.ofNat (((x1 * 16 + x2) * 16 + x3) * 16 + x4) :: cs, rem)
              | .error m => .error m
            | _, _, _, _ => .error "Invalid unicode escape"
          | _ => .error "Invalid unicode escape"
        else
          match
            (if e = '"' then some '"'
             else if e = '\\' then some '\\'
             else if e = '/' then some '/'
             else if e = 'b' then some '\x08'
             else if e = 'f' then some '\x0c'
             else if e = 'n' then some '\n'
             else if e = 'r' then some '\r'
             else if e = 't' then some '\t'
             else none) with
          | some ch =>
            match decStr rest2 with
            | .ok (cs, rem) => .ok (ch :: cs, rem)
            | .error m => .error m
          | none => .error "Invalid escape"
    else if c.toNat < 32 then .error "Invalid control character"
    else
      match decStr rest with
      | .ok (cs, rem) => .ok (c :: cs, rem)
      | .error m => .error m

def digitsToNat (ds : List Char) : Nat :=
  ds.foldl (fun acc c => acc * 10 + (c.toNat - '0'.toNat)) 0

/-- Decode a JSON number (integers only): an optional minus sign, then either
a single `0` or a nonzero-led digit run; a following `.`, `e` or `E` (a
fractional or exponent part) is outside this model and rejected. -/
def decNum (cs : List Char) : Except String (PyVal × List Char) :=
  let (neg, cs1) :=
    match cs with
    | '-' :: rest => (true, rest)
    | _ => (false, cs)
  match cs1 with
  | [] => .error "Expecting value"
  | d :: rest =>
    if ¬ d.isDigit then .error "Expecting value"
    else
      let (ds, rem) :=
        if d = '0' then ([d], rest)
        else (d :: rest.takeWhile Char.isDigit, rest.dropWhile Char.isDigit)
      match rem with
      | e :: _ =>
        if e = '.' ∨ e = 'e' ∨ e = 'E' then .error "Fractional numbers unsupported"
        else
          let n : Int := Int.ofNat (digitsToNat ds)
          .ok (.num (if neg then -n else n), rem)
      | [] =>
        let n : Int := Int.ofNat (digitsToNat ds)
        .ok (.num (if neg then -n else n), [])

def lbrace : Char := Char.ofNat 123
def rbrace : Char := Char.ofNat 125

mutual

/-- Decode one JSON value (fuel-indexed recursive descent). -/
def decVal : Nat → List Char → Except String (PyVal × List Char)
  | 0, _ => .error "Too deeply nested"
  | fuel + 1, cs =>
    match cs.dropWhile jsonWs with
    | [] => .error "Expecting value"
    | c :: rest =>
      if c = 'n' then
        match rest with
        | 'u' :: 'l' :: 'l' :: rem => .ok (.null, rem)
        | _ => .error "Expecting value"
      else if c = 't' then
        match rest with
        | 'r' :: 'u' :: 'e' :: rem => .ok (.bool true, rem)
        | _ => .error "Expecting value"
      else if c = 'f' then
        match rest with
        | 'a' :: 'l' :: 's' :: 'e' :: rem => .ok (.bool false, rem)
        | _ => .error "Expecting value"
      else if c = '"' then
        match decStr rest with
        | .ok (cs2, rem) => .ok (.str ⟨cs2⟩, rem)
        | .error m => .error m
      else if c = '[' then
        match (rest.dropWhile jsonWs) with
        | ']' :: rem => .ok (.arr [], rem)
        | _ => decArrItems fuel rest []
      else if c = lbrace then
        match (rest.dropWhile jsonWs) with
        | b :: rem =>
          if b = rbrace then .ok (.obj [], rem)
          else decObjItems fuel rest []
        | [] => .error "Expecting property name"
      else decNum (c :: rest)

/-- Decode the elements of a nonempty JSON array, accumulating in order. -/
def decArrItems : Nat → List Char → List PyVal → Except String (PyVal × List Char)
  | 0, _, _ => .error "Too deeply nested"
  | fuel + 1, cs, acc =>
    match decVal fuel cs with
    | .error m => .error m
    | .ok (v, rem) =>
      match rem.dropWhile jsonWs with
      | ']' :: rem2 => .ok (.arr (acc ++ [v]), rem2)
      | ',' :: rem2 => decArrItems fuel rem2 (acc ++ [v])
      | _ => .error "Expecting comma"

/-- Decode the members of a nonempty JSON object, accumulating in order. -/
def decObjItems : Nat → List Char → List (String × PyVal) →
    Except String (PyVal × List Char)
  | 0, _, _ => .error "Too deeply nested"
  | fuel + 1, cs, acc =>
    match cs.dropWhile jsonWs with
    | '"' :: rest =>
      match decStr rest with
      | .error m => .error m
      | .ok (kcs, rem) =>
        match rem.dropWhile jsonWs with
        | ':' :: rem2 =>
          match decVal fuel rem2 with
          | .error m => .error m
          | .ok (v, rem3) =>
            match rem3.dropWhile jsonWs with
            | b :: rem4 =>
              if b = rbrace then .ok (.obj (acc ++ [(⟨kcs⟩, v)]), rem4)
              else if b = ',' then decObjItems fuel rem4 (acc ++ [(⟨kcs⟩, v)])
              else .error "Expecting comma"
            | [] => .error "Expecting comma"
        | _ => .error "Expecting colon"
    | _ => .error "Expecting property name"

end

/-- Model of `json.loads`: decode one value and reject trailing data. -/
def jsonDecode (s : String) : Except String PyVal :=
  match decVal (s.length + 1) s.data with
  | .error m => .error m
  | .ok (v, rem) =>
    if (rem.dropWhile jsonWs).isEmpty then .ok v else .error "Extra data"

/-! ## Fenced code block extraction

Model of the regex step in `parse_classification_response`:

    if "```" in content:
        match = re.search(r"```(?:json)?\s*(\x7b.*?\x7d)\s*```", content, re.DOTALL)
        if match:
            content = match.group(1)

`re.search` scans starting positions left to right; `(?:json)?` commits to
the tag when present (skipping it can never succeed afterwards, since `j` is
neither whitespace nor an opening brace); `\s*` is greedy but cannot
backtrack past the disjoint follow set; `.*?` is non-greedy under DOTALL, so
the group ends at the first closing brace that is followed by optional
whitespace and a closing fence. -/

def tick : Char := Char.ofNat 96

def pySpace (c : Char) : Bool :=
  c = ' ' || c = '\t' || c = '\n' || c = '\r' || c = '\x0b' || c = '\x0c'

def threeTicks (l : List Char) : Bool :=
  "```".data.isPrefixOf l

def hasTicks : List Char → Bool
  | [] => false
  | c :: rest => threeTicks (c :: rest) || hasTicks rest

/-- Scan for the first closing brace that is followed by `\s*` and a closing
fence; returns the characters strictly before it (the non-greedy `.*?`). -/
def findClose : List Char → Option (List Char)
  | [] => none
  | c :: rest =>
    if c = rbrace ∧ threeTicks (rest.dropWhile pySpace) then some []
    else (findClose rest).map (fun inner => c :: inner)

/-- Attempt the fence regex anchored at the head of `cs`; returns the
captured group (brace to brace) on success. -/
def matchFenceAt (cs : List Char) : Option (List Char) :=
  if threeTicks cs then
    let r1 := cs.drop 3
    let r2 := if "json".data.isPrefixOf r1 then r1.drop 4 else r1
    match r2.dropWhile pySpace with
    | c :: body =>
      if c = lbrace then
        (findClose body).map (fun inner => lbrace :: (inner ++ [rbrace]))
      else none
    | [] => none
  else none

/-- Leftmost regex match: try each starting position in order. -/
def searchFence : List Char → Option (List Char)
  | [] => none
  | c :: rest =>
    match matchFenceAt (c :: rest) with
    | some g => some g
    | none => searchFence rest

/-- Fence-stripping step of `parse_classification_response`. -/
def stripFence (content : String) : String :=
  if hasTicks content.data then
    match searchFence content.data with
    | some g => ⟨g⟩
    | none => content
  else content

/-! ## Field coercion (the body of the `try` block after `json.loads`) -/

/-- Exceptions that can escape or be caught inside
`parse_classification_response`. The `except` clause catches exactly
`json.JSONDecodeError` and `KeyError`; an `AttributeError` (raised by `.get`
on a non-dict, or `.startswith` on a truthy non-string) propagates. -/
inductive PyExc where
  | jsonDecodeError (msg : String)
  | keyError (msg : String)
  | attributeError (msg : String)
deriving DecidableEq, Repr

/-- Python `==` between a decoded value and a string literal: true only for
an equal string. -/
def pyEqStr (v : PyVal) (s : String) : Bool :=
  match v with
  | .str t => t = s
  | _ => false

/-- Split a character list on newlines, keeping empty segments, mirroring
Python `str.split("\n")`. -/
def splitNl : List Char → List (List Char)
  | [] => [[]]
  | c :: rest =>
    if c = '\n' then [] :: splitNl rest
    else
      match splitNl rest with
      | h :: t => (c :: h) :: t
      | [] => [[c]]

/-- Join character lists with newlines, mirroring Python `"\n".join(...)`. -/
def joinNl : List (List Char) → List Char
  | [] => []
  | [x] => x
  | x :: y :: rest => x ++ '\n' :: joinNl (y :: rest)

/-- Strip leading and trailing Python whitespace from a character list. -/
def stripList (l : List Char) : List Char :=
  ((l.dropWhile pySpace).reverse.dropWhile pySpace).reverse

/-- Python list-joining of a list-valued `reasoning`:
`"\n".join(f"• \x7br\x7d" for r in reasoning)`. -/
def bulletJoin (items : List PyVal) : String :=
  ⟨joinNl (items.map (fun r => "• ".data ++ (pyStr r).data))⟩

/-- Normalization of a plain-string `reasoning` without a leading bullet:
split on newlines, drop blank lines, prefix `• ` to lines lacking a bullet
marker. -/
def normalizeReasoning (s : String) : String :=
  let lines := splitNl (stripList s.data)
  ⟨joinNl ((lines.filter (fun l => !(stripList l).isEmpty)).map
      (fun l =>
        if "•".data.isPrefixOf l || "-".data.isPrefixOf l then l
        else "• ".data ++ l))⟩

/-- Bullet-ensuring step applied to the (possibly list-joined) `reasoning`
value. A truthy non-string raises `AttributeError` at `.startswith`; a falsy
non-string is returned unchanged. -/
def reasoningStep (v : PyVal) : Except PyExc PyVal :=
  match v with
  | .str s =>
    if !s.data.isEmpty && !("•".data.isPrefixOf s.data) &&
        !("-".data.isPrefixOf s.data) then
      .ok (.str (normalizeReasoning s))
    else .ok (.str s)
  | w => if truthy w then .error (.attributeError "startswith") else .ok w

/-- Interest selection: `data.get("interest") or data.get("topic")`, then
coercion of the literal token `"null"` or the empty string to null. -/
def interestOf (kvs : List (String × PyVal)) : PyVal :=
  let gi := (pyGet kvs "interest").getD .null
  let interest0 := if truthy gi then gi else (pyGet kvs "topic").getD .null
  if pyEqStr interest0 "null" || pyEqStr interest0 "" then PyVal.null
  else interest0

/-- Signal coercion: `bool(data.get("is_signal", False))`. -/
def isSignalOf (kvs : List (String × PyVal)) : Bool :=
  truthy ((pyGet kvs "is_signal").getD (.bool false))

/-- Reasoning lookup with its default, and the list-joining step. -/
def reasoningVal (kvs : List (String × PyVal)) : PyVal :=
  match (pyGet kvs "reasoning").getD (.str "No reasoning provided") with
  | .arr items => PyVal.str (bulletJoin items)
  | v => v

/-- Body of the `try` block after `json.loads` succeeded: interest/topic
selection, null coercion, `is_signal` coercion, reasoning handling.
`data.get` on a non-dict raises `AttributeError`. -/
def classifyFields : PyVal → Except PyExc (PyVal × Bool × PyVal)
  | .obj kvs =>
    match reasoningStep (reasoningVal kvs) with
    | .ok r2 => .ok (interestOf kvs, isSignalOf kvs, r2)
    | .error e => .error e
  | _ => .error (.attributeError "get")

/-- Everything after fence stripping, including the `except` clause: a
`JSONDecodeError` or `KeyError` is converted to the parse-error outcome; any
other exception propagates. -/
def afterDecode (d : Except String PyVal) : Except PyExc (PyVal × Bool × PyVal) :=
  match d with
  | .error m => .ok (.null, false, .str ("Failed to parse classification: " ++ m))
  | .ok v =>
    match classifyFields v with
    | .ok r => .ok r
    | .error (.keyError m) =>
      .ok (.null, false, .str ("Failed to parse classification: " ++ m))
    | .error e => .error e

/-- Embedding of `classifier.py::parse_classification_response`. -/
def parse_classification_response (content : String) :
    Except PyExc (PyVal × Bool × PyVal) :=
  afterDecode (jsonDecode (stripFence content))

/-! ## Entry store (model of `db.py` over a list of rows)

Timestamp TEXT columns (ISO-8601 strings compared by SQL `>=`, a linear
order) are modelled as `Nat`; `CURRENT_TIMESTAMP` is an explicit `now`
argument. -/

structure Row where
  id : Nat
  feedbin_id : Nat
  feed_name : Option String
  title : Option String
  url : Option String
  content : Option String
  author : Option String
  published_at : Option Nat
  fetched_at : Nat
  processed_at : Option Nat
  interest : Option String
  is_signal : Option Bool
  reasoning : Option String
  read_at : Option Nat
deriving DecidableEq, Repr

/-- Fields supplied to the upsert statement (the seven insert parameters of
`Database.upsert_entry`). -/
structure NewEntry where
  feedbin_id : Nat
  feed_name : Option String
  title : Option String
  url : Option String
  content : Option String
  author : Option String
  published_at : Option Nat
deriving DecidableEq, Repr

abbrev Store := List Row

/-- SQL `COALESCE(excluded.f, entries.f)`. -/
def coal (a b : Option α) : Option α :=
  match a with
  | some x => some x
  | none => b

/-- Conflict branch of the upsert: merge only non-null incoming descriptive
fields into the existing row. -/
def mergeRow (r : Row) (e : NewEntry) : Row :=
  { r with
    feed_name := coal e.feed_name r.feed_name
    title := coal e.title r.title
    url := coal e.url r.url
    content := coal e.content r.content
    author := coal e.author r.author
    published_at := coal e.published_at r.published_at }

/-- Fresh `INTEGER PRIMARY KEY` id for an insert. -/
def freshId (s : Store) : Nat :=
  (s.map Row.id).foldr Nat.max 0 + 1

/-- Insert branch of the upsert: classification and read fields null,
`fetched_at` stamped by its `CURRENT_TIMESTAMP` column default. -/
def newRow (nid : Nat) (e : NewEntry) (now : Nat) : Row :=
  { id := nid
    feedbin_id := e.feedbin_id
    feed_name := e.feed_name
    title := e.title
    url := e.url
    content := e.content
    author := e.author
    published_at := e.published_at
    fetched_at := now
    processed_at := none
    interest := none
    is_signal := none
    reasoning := none
    read_at := none }

/-- Embedding of `Database.upsert_entry` (`INSERT ... ON CONFLICT(feedbin_id)
DO UPDATE SET ... RETURNING id`). -/
def upsert_entry (s : Store) (e : NewEntry) (now : Nat) : Store × Nat :=
  if s.any (fun r => r.feedbin_id == e.feedbin_id) then
    (s.map (fun r => if r.feedbin_id == e.feedbin_id then mergeRow r e else r),
     (((s.find? (fun r => r.feedbin_id == e.feedbin_id)).map Row.id).getD 0))
  else
    let nid := freshId s
    (s ++ [newRow nid e now], nid)

/-- Embedding of `Database.get_entry`. -/
def get_entry (s : Store) (eid : Nat) : Option Row :=
  s.find? (fun r => r.id == eid)

/-- Selection predicate of `Database.get_unprocessed_entries`:
`processed_at IS NULL` and, when a `process_after` cutoff is configured,
`published_at >= cutoff` (a SQL comparison against NULL is not true). -/
def eligible (cutoff : Option Nat) (r : Row) : Bool :=
  r.processed_at.isNone &&
    match cutoff with
    | none => true
    | some t =>
      match r.published_at with
      | some p => decide (t ≤ p)
      | none => false

/-- Ordering used by `ORDER BY fetched_at ASC`. -/
def rowLe (a b : Row) : Prop := a.fetched_at ≤ b.fetched_at

instance : DecidableRel rowLe := fun a b => Nat.decLe a.fetched_at b.fetched_at

instance : IsTotal Row rowLe := ⟨fun a b => Nat.le_total a.fetched_at b.fetched_at⟩

instance : IsTrans Row rowLe := ⟨fun _ _ _ h h2 => Nat.le_trans h h2⟩

/-- Embedding of `Database.get_unprocessed_entries`. -/
def get_unprocessed_entries (s : Store) (process_after : Option Nat)
    (limit : Nat) : List Row :=
  (List.insertionSort rowLe (s.filter (eligible process_after))).take limit

/-- Embedding of `Database.update_entry_classification`: all four
classification fields stamped together, `processed_at` to now. -/
def update_entry_classification (s : Store) (eid : Nat) (interest : Option String)
    (is_signal : Bool) (reasoning : String) (now : Nat) : Store :=
  s.map (fun r =>
    if r.id == eid then
      { r with
        interest := interest
        is_signal := some is_signal
        reasoning := some reasoning
        processed_at := some now }
    else r)

/-- Embedding of `Database.clear_entry_classification`: all four
classification fields nulled together. -/
def clear_entry_classification (s : Store) (eid : Nat) : Store :=
  s.map (fun r =>
    if r.id == eid then
      { r with
        interest := none
        is_signal := none
        reasoning := none
        processed_at := none }
    else r)

/-- Embedding of `Database.update_entry_content`. -/
def update_entry_content (s : Store) (eid : Nat) (content : String) : Store :=
  s.map (fun r => if r.id == eid then { r with content := some content } else r)

/-- Embedding of `Database.mark_entry_read` (`WHERE id = ? AND read_at IS
NULL`). -/
def mark_entry_read (s : Store) (eid : Nat) (now : Nat) : Store :=
  s.map (fun r =>
    if r.id == eid ∧ r.read_at = none then { r with read_at := some now } else r)

/-- Requeue window test: `published_at >= datetime('now', '-h hours')`, with
the threshold time passed explicitly. -/
def requeueHits (threshold : Nat) (r : Row) : Bool :=
  match r.published_at with
  | some p => decide (threshold ≤ p)
  | none => false

/-- Embedding of `Database.requeue_entries`: bulk-clear the classification
fields of entries published within the window; returns the count affected. -/
def requeue_entries (s : Store) (threshold : Nat) : Store × Nat :=
  (s.map (fun r =>
    if requeueHits threshold r then
      { r with
        interest := none
        is_signal := none
        reasoning := none
        processed_at := none }
    else r),
   s.countP (fun r => requeueHits threshold r))

/-! ## Entry formatting (model of `format_entry_for_classification`) -/

/-- First `re.sub` helper: find the first `>` and return the remainder after
it. -/
def goGt : List Char → Option (List Char)
  | [] => none
  | c :: rest => if c = '>' then some rest else goGt rest

/-- Attempt to match `<[^>]+>` right after an opening `<`: at least one
non-`>` character, then the first `>`. -/
def tagEnd : List Char → Option (List Char)
  | [] => none
  | c :: rest => if c = '>' then none else goGt rest

/-- Fuel-indexed naive tag stripping, `re.sub(r"<[^>]+>", " ", content)`:
each leftmost tag match is replaced by a single space. Fuel at least the
length of the input makes the fuel case unreachable. -/
def stripTagsF : Nat → List Char → List Char
  | 0, l => l
  | _ + 1, [] => []
  | fuel + 1, c :: cs =>
    if c = '<' then
      match tagEnd cs with
      | some rest => ' ' :: stripTagsF fuel rest
      | none => c :: stripTagsF fuel cs
    else c :: stripTagsF fuel cs

def stripTags (l : List Char) : List Char :=
  stripTagsF l.length l

/-- Whitespace collapsing, `re.sub(r"\s+", " ", content)`: every maximal
whitespace run becomes a single space. -/
def collapseWs : List Char → List Char
  | [] => []
  | [c] => if pySpace c then [' '] else [c]
  | a :: b :: rest =>
    if pySpace a ∧ pySpace b then collapseWs (b :: rest)
    else (if pySpace a then ' ' else a) :: collapseWs (b :: rest)

/-- Content processing of `format_entry_for_classification`: truncate to
3000 characters FIRST, then strip tags, collapse whitespace and strip. -/
def processContent (c : String) : String :=
  ⟨stripList (collapseWs (stripTags (c.data.take 3000)))⟩

/-- Python truthiness of an optional string field (`if entry.f:`). -/
def optTruthy : Option String → Bool
  | some s => !s.data.isEmpty
  | none => false

/-- Embedding of `classifier.py::format_entry_for_classification`. -/
def format_entry_for_classification (e : Row) : String :=
  let parts : List String := []
  let parts := if optTruthy e.feed_name then parts ++ ["Feed: " ++ e.feed_name.getD ""] else parts
  let parts := if optTruthy e.title then parts ++ ["Title: " ++ e.title.getD ""] else parts
  let parts := if optTruthy e.url then parts ++ ["URL: " ++ e.url.getD ""] else parts
  let parts := if optTruthy e.author then parts ++ ["Author: " ++ e.author.getD ""] else parts
  let parts :=
    if optTruthy e.content then
      parts ++ ["Content: " ++ processContent (e.content.getD "")]
    else parts
  ⟨joinNl (parts.map String.data)⟩

/-! ## Batch driver and reprocess route

`classify_entry` performs prompt rendering, optional content enrichment and
the oracle network call; its observable result here is either a returned
`(interest, is_signal, reasoning)` triple or a raised exception message, so
it is abstracted as a function of the entry. Content enrichment touches only
the `content` column and no classification field. -/

abbrev Oracle := Row → Except String (Option String × Bool × String)

/-- Embedding of `classifier.py::process_unclassified_entries`: pull a
batch, classify each entry, persist each outcome (converting a raised
exception into the classify-failed outcome), return the number pulled. -/
def process_unclassified_entries (oracle : Oracle) (s : Store)
    (process_after : Option Nat) (limit : Nat) (now : Nat) : Store × Nat :=
  let entries := get_unprocessed_entries s process_after limit
  (entries.foldl (fun st e =>
      match oracle e with
      | .ok (i, sig, r) => update_entry_classification st e.id i sig r now
      | .error msg =>
        update_entry_classification st e.id none false
          ("Classification error: " ++ msg) now) s,
   entries.length)

inductive ApiError where
  | notFound
  | uncaught (msg : String)
deriving DecidableEq, Repr

/-- Embedding of `server.py::reprocess_entry`: 404 on unknown id; otherwise
clear the classification, call `classify_entry` on the previously fetched
entry, persist and return the updated row. A raised exception propagates
out of the route after the clear has been committed. -/
def reprocess_entry (oracle : Oracle) (s : Store) (eid : Nat) (now : Nat) :
    Store × Except ApiError Row :=
  match get_entry s eid with
  | none => (s, .error .notFound)
  | some e =>
    let s1 := clear_entry_classification s eid
    match oracle e with
    | .error msg => (s1, .error (.uncaught msg))
    | .ok (i, sig, r) =>
      let s2 := update_entry_classification s1 eid i sig r now
      match get_entry s2 eid with
      | some e2 => (s2, .ok e2)
      | none => (s2, .error (.uncaught "missing row"))

/-! ## Specification-side predicates -/

/-- Store invariant of the data model: `is_signal` is non-null exactly when
`processed_at` is non-null. -/
@[reducible] def ClassInv (s : Store) : Prop :=
  ∀ r ∈ s, (r.is_signal.isSome ↔ r.processed_at.isSome)

/-- Wellformedness: internal ids are pairwise distinct (`INTEGER PRIMARY
KEY`). -/
@[reducible] def IdsDistinct (s : Store) : Prop :=
  s.Pairwise (fun a b => a.id ≠ b.id)

/-- Per-row effect of one batch iteration of `process_unclassified_entries`
on the row with the matching id (used to reason about the fold). -/
def classifyRowStep (oracle : Oracle) (now : Nat) (e r : Row) : Row :=
  match oracle e with
  | .ok (i, sig, rs) =>
    if r.id == e.id then
      { r with
        interest := i
        is_signal := some sig
        reasoning := some rs
        processed_at := some now }
    else r
  | .error msg =>
    if r.id == e.id then
      { r with
        interest := none
        is_signal := some false
        reasoning := some ("Classification error: " ++ msg)
        processed_at := some now }
    else r

/-- Sample row builder for concrete witnesses. -/
def mkRow (i fid : Nat) (pub : Option Nat) (fet : Nat) (proc : Option Nat)
    (sig : Option Bool) : Row :=
  { id := i
    feedbin_id := fid
    feed_name := some "feed"
    title := some "title"
    url := none
    content := none
    author := none
    published_at := pub
    fetched_at := fet
    processed_at := proc
    interest := none
    is_signal := sig
    reasoning := none
    read_at := none }

/-! # Theorems -/

/-- Mapping a store with a row function that preserves the classification
invariant row-wise preserves it store-wise. -/
theorem classInv_map {s : Store} (h : ClassInv s) (g : Row → Row)
    (hg : ∀ r, (r.is_signal.isSome ↔ r.processed_at.isSome) →
      ((g r).is_signal.isSome ↔ (g r).processed_at.isSome)) :
    ClassInv (s.map g) := by
  intro r hr
  rcases List.mem_map.1 hr with ⟨r0, h0, rfl⟩
  exact hg r0 (h r0 h0)

/-- C5. State invariant preserved by every store operation: after upsert,
set/clear classification, requeue, content update or mark-read, every stored
row has `is_signal` non-null iff `processed_at` non-null; `set_classification`
stamps both together and clear/requeue null both together. -/
theorem store_ops_preserve_class_inv (s : Store) (h : ClassInv s) :
    (∀ e now, ClassInv (upsert_entry s e now).1) ∧
    (∀ eid i sig rs now, ClassInv (update_entry_classification s eid i sig rs now)) ∧
    (∀ eid, ClassInv (clear_entry_classification s eid)) ∧
    (∀ th, ClassInv (requeue_entries s th).1) ∧
    (∀ eid c, ClassInv (update_entry_content s eid c)) ∧
    (∀ eid now, ClassInv (mark_entry_read s eid now)) := by
  refine ⟨?_, ?_, ?_, ?_, ?_, ?_⟩
  · intro e now
    unfold upsert_entry
    by_cases hc : s.any (fun r => r.feedbin_id == e.feedbin_id)
    · simp only [hc, if_true]
      refine classInv_map h _ (fun r hr => ?_)
      by_cases hm : r.feedbin_id == e.feedbin_id <;> simp [hm, mergeRow, hr]
    · simp only [hc, if_false]
      intro r hr
      rcases List.mem_append.1 hr with h1 | h1
      · exact h r h1
      · rcases List.mem_singleton.1 h1 with rfl
        simp [newRow]
  · intro eid i sig rs now
    refine classInv_map h _ (fun r hr => ?_)
    by_cases hm : r.id == eid <;> simp [update_entry_classification, hm, hr]
  · intro eid
    refine classInv_map h _ (fun r hr => ?_)
    by_cases hm : r.id == eid <;> simp [hm, hr]
  · intro th
    refine classInv_map h _ (fun r hr => ?_)
    by_cases hm : requeueHits th r <;> simp [hm, hr]
  · intro eid c
    refine classInv_map h _ (fun r hr => ?_)
    by_cases hm : r.id == eid <;> simp [hm, hr]
  · intro eid now
    refine classInv_map h _ (fun r hr => ?_)
    by_cases hm : r.id = eid ∧ r.read_at = none <;> simp [hm, hr]

/-- Witness for C5 at a concrete one-row store. -/
theorem store_ops_preserve_class_inv_witness :
    ClassInv [mkRow 1 10 (some 5) 3 none none] ∧
    ClassInv (update_entry_classification [mkRow 1 10 (some 5) 3 none none]
      1 none true "reason" 7) :=
  ⟨by decide, (store_ops_preserve_class_inv _ (by decide)).2.1 1 none true "reason" 7⟩

/-- C4. Upsert is an idempotent merge keyed by external id: two upserts with
the same `feedbin_id` into a store not containing that id leave exactly one
row with it, whose descriptive fields each hold the latest non-null incoming
value (an incoming null never overwrites a populated field), whose
classification and read fields are null, and whose `fetched_at` is the first
insert's timestamp. -/
theorem upsert_same_external_id_merges (s : Store) (e1 e2 : NewEntry)
    (n1 n2 : Nat) (hfid : e1.feedbin_id = e2.feedbin_id)
    (hfresh : ∀ r ∈ s, r.feedbin_id ≠ e1.feedbin_id) :
    ((upsert_entry (upsert_entry s e1 n1).1 e2 n2).1.countP
        (fun r => r.feedbin_id == e1.feedbin_id) = 1) ∧
    ∀ r ∈ (upsert_entry (upsert_entry s e1 n1).1 e2 n2).1,
      r.feedbin_id = e1.feedbin_id →
        r.feed_name = coal e2.feed_name e1.feed_name ∧
        r.title = coal e2.title e1.title ∧
        r.url = coal e2.url e1.url ∧
        r.content = coal e2.content e1.content ∧
        r.author = coal e2.author e1.author ∧
        r.published_at = coal e2.published_at e1.published_at ∧
        r.processed_at = none ∧ r.is_signal = none ∧ r.reasoning = none ∧
        r.read_at = none ∧ r.fetched_at = n1 := by
  have h1 : s.any (fun r => r.feedbin_id == e1.feedbin_id) = false := by
    rw [List.any_eq_false]
    intro r hr
    simpa using hfresh r hr
  have hinsert : (upsert_entry s e1 n1).1 = s ++ [newRow (freshId s) e1 n1] := by
    unfold upsert_entry
    rw [h1]
    simp
  have h2 : (s ++ [newRow (freshId s) e1 n1]).any
      (fun r => r.feedbin_id == e2.feedbin_id) = true := by
    rw [List.any_eq_true]
    exact ⟨newRow (freshId s) e1 n1, by simp, by simp [newRow, hfid]⟩
  have hmap : (upsert_entry (upsert_entry s e1 n1).1 e2 n2).1 =
      (s ++ [newRow (freshId s) e1 n1]).map
        (fun r => if r.feedbin_id == e2.feedbin_id then mergeRow r e2 else r) := by
    rw [hinsert]
    unfold upsert_entry
    rw [h2]
    simp
  constructor
  · rw [hmap, List.countP_map, List.countP_append]
    have hz : (s.countP ((fun r => r.feedbin_id == e1.feedbin_id) ∘
        fun r => if r.feedbin_id == e2.feedbin_id then mergeRow r e2 else r)) = 0 := by
      rw [List.countP_eq_zero]
      intro r hr
      have hne := hfresh r hr
      have hne2 : r.feedbin_id ≠ e2.feedbin_id := hfid ▸ hne
      simp [hne2, hne]
    rw [hz]
    simp [newRow, mergeRow, hfid]
  · intro r hr hrfid
    rw [hmap] at hr
    rcases List.mem_map.1 hr with ⟨r0, h0, rfl⟩
    rcases List.mem_append.1 h0 with h0 | h0
    · have hne := hfresh r0 h0
      have hne2 : r0.feedbin_id ≠ e2.feedbin_id := hfid ▸ hne
      rw [if_neg (by simpa using hne2)] at hrfid
      exact absurd hrfid hne
    · rcases List.mem_singleton.1 h0 with rfl
      simp [newRow, hfid, mergeRow, coal]

/-- Witness for C4: two upserts of external id 7 into a one-row store. -/
theorem upsert_same_external_id_merges_witness :
    ((upsert_entry (upsert_entry [mkRow 1 5 (some 2) 1 none none]
        ⟨7, some "a", none, none, none, none, some 3⟩ 1).1
        ⟨7, none, some "b", none, none, none, none⟩ 2).1.countP
      (fun r => r.feedbin_id ==
        (⟨7, some "a", none, none, none, none, some 3⟩ : NewEntry).feedbin_id) = 1) :=
  (upsert_same_external_id_merges [mkRow 1 5 (some 2) 1 none none]
    ⟨7, some "a", none, none, none, none, some 3⟩
    ⟨7, none, some "b", none, none, none, none⟩ 1 2 rfl (by decide)).1

/-- C10. Frame property of the conflict branch of upsert: re-upserting an
already stored external id only merges the descriptive fields — the stored
row's id, `fetched_at`, classification state and read state are untouched,
no row is added or removed, and rows with other external ids are unchanged. -/
theorem upsert_conflict_preserves_state (s : Store) (e : NewEntry) (now : Nat)
    (r : Row) (hr : r ∈ s) (hfid : r.feedbin_id = e.feedbin_id) :
    (upsert_entry s e now).1.length = s.length ∧
    mergeRow r e ∈ (upsert_entry s e now).1 ∧
    (mergeRow r e).id = r.id ∧
    (mergeRow r e).fetched_at = r.fetched_at ∧
    (mergeRow r e).processed_at = r.processed_at ∧
    (mergeRow r e).interest = r.interest ∧
    (mergeRow r e).is_signal = r.is_signal ∧
    (mergeRow r e).reasoning = r.reasoning ∧
    (mergeRow r e).read_at = r.read_at ∧
    (∀ r2 ∈ s, r2.feedbin_id ≠ e.feedbin_id → r2 ∈ (upsert_entry s e now).1) := by
  have hc : s.any (fun r2 => r2.feedbin_id == e.feedbin_id) = true :=
    List.any_eq_true.2 ⟨r, hr, by simp [hfid]⟩
  have hmap : (upsert_entry s e now).1 =
      s.map (fun r2 => if r2.feedbin_id == e.feedbin_id then mergeRow r2 e else r2) := by
    unfold upsert_entry
    rw [hc]
    simp
  refine ⟨by rw [hmap]; simp, ?_, rfl, rfl, rfl, rfl, rfl, rfl, rfl, ?_⟩
  · rw [hmap]
    refine List.mem_map.2 ⟨r, hr, ?_⟩
    simp [hfid]
  · intro r2 h2 hne
    rw [hmap]
    refine List.mem_map.2 ⟨r2, h2, ?_⟩
    simp [hne]

/-- Witness for C10: re-sync of an already classified, already read row. -/
theorem upsert_conflict_preserves_state_witness :
    (upsert_entry [mkRow 1 7 (some 2) 1 (some 9) (some true)]
      ⟨7, none, some "new title", none, none, none, none⟩ 4).1.length = 1 :=
  (upsert_conflict_preserves_state [mkRow 1 7 (some 2) 1 (some 9) (some true)]
    ⟨7, none, some "new title", none, none, none, none⟩ 4
    (mkRow 1 7 (some 2) 1 (some 9) (some true)) (by decide) rfl).1

/-- Unfolding of the batch eligibility test: the row must be unclassified. -/
theorem eligible_processed {cutoff : Option Nat} {r : Row}
    (h : eligible cutoff r = true) : r.processed_at = none := by
  unfold eligible at h
  rw [Bool.and_eq_true] at h
  exact Option.isNone_iff_eq_none.1 h.1

/-- Unfolding of the batch eligibility test under a configured cutoff: the
row must carry a published timestamp at or after the cutoff. -/
theorem eligible_cutoff {T : Nat} {r : Row} (h : eligible (some T) r = true) :
    ∃ p, r.published_at = some p ∧ T ≤ p := by
  unfold eligible at h
  rw [Bool.and_eq_true] at h
  rcases h with ⟨-, h2⟩
  cases hp : r.published_at with
  | none => rw [hp] at h2; simp at h2
  | some p =>
    rw [hp] at h2
    exact ⟨p, rfl, of_decide_eq_true h2⟩

/-- C6. The batch pull selects at most `limit` rows, sorted by `fetched_at`
ascending; every selected row is a stored row with `processed_at` null and,
when a cutoff is configured, a published timestamp at or after the cutoff
(so a pre-cutoff row is never selected); and any eligible stored row left
out is fetched no earlier than every selected row (the pull takes the
earliest-fetched eligible rows, irrespective of published timestamps). -/
theorem get_unprocessed_entries_spec (s : Store) (cutoff : Option Nat)
    (limit : Nat) :
    (get_unprocessed_entries s cutoff limit).length =
      min limit (s.filter (eligible cutoff)).length ∧
    List.Sorted rowLe (get_unprocessed_entries s cutoff limit) ∧
    (∀ r ∈ get_unprocessed_entries s cutoff limit,
      r ∈ s ∧ r.processed_at = none ∧
      ∀ T, cutoff = some T → ∃ p, r.published_at = some p ∧ T ≤ p) ∧
    (∀ r2 ∈ s, eligible cutoff r2 = true →
      r2 ∉ get_unprocessed_entries s cutoff limit →
      ∀ r ∈ get_unprocessed_entries s cutoff limit,
        r.fetched_at ≤ r2.fetched_at) := by
  have hsorted : List.Sorted rowLe
      (List.insertionSort rowLe (s.filter (eligible cutoff))) :=
    List.sorted_insertionSort rowLe _
  have hperm : List.Perm (List.insertionSort rowLe (s.filter (eligible cutoff)))
      (s.filter (eligible cutoff)) := List.perm_insertionSort rowLe _
  refine ⟨?_, ?_, ?_, ?_⟩
  · rw [get_unprocessed_entries, List.length_take, hperm.length_eq]
  · exact List.Pairwise.sublist (List.take_sublist _ _) hsorted
  · intro r hr
    have hrl : r ∈ List.insertionSort rowLe (s.filter (eligible cutoff)) :=
      List.take_subset _ _ hr
    have hrf : r ∈ s.filter (eligible cutoff) := hperm.mem_iff.1 hrl
    rcases List.mem_filter.1 hrf with ⟨hrs, helig⟩
    refine ⟨hrs, eligible_processed helig, ?_⟩
    rintro T rfl
    exact eligible_cutoff helig
  · intro r2 h2s h2e h2notin r hr
    have h2l : r2 ∈ List.insertionSort rowLe (s.filter (eligible cutoff)) :=
      hperm.mem_iff.2 (List.mem_filter.2 ⟨h2s, h2e⟩)
    have h2split : r2 ∈ (List.insertionSort rowLe (s.filter (eligible cutoff))).take limit ++
        (List.insertionSort rowLe (s.filter (eligible cutoff))).drop limit := by
      rw [List.take_append_drop]
      exact h2l
    have h2drop : r2 ∈ (List.insertionSort rowLe (s.filter (eligible cutoff))).drop limit := by
      rcases List.mem_append.1 h2split with h | h
      · exact absurd h h2notin
      · exact h
    have hpw : List.Pairwise rowLe
        ((List.insertionSort rowLe (s.filter (eligible cutoff))).take limit ++
         (List.insertionSort rowLe (s.filter (eligible cutoff))).drop limit) := by
      rw [List.take_append_drop]
      exact hsorted
    exact (List.pairwise_append.1 hpw).2.2 r hr r2 h2drop

/-- The per-row step never changes a row's id. -/
theorem classifyRowStep_id (oracle : Oracle) (now : Nat) (e r : Row) :
    (classifyRowStep oracle now e r).id = r.id := by
  unfold classifyRowStep
  cases oracle e with
  | ok out =>
    rcases out with ⟨i, sig, rs⟩
    by_cases hm : r.id == e.id <;> simp [hm]
  | error msg => by_cases hm : r.id == e.id <;> simp [hm]

/-- The per-row step leaves a row with a different id unchanged. -/
theorem classifyRowStep_ne (oracle : Oracle) (now : Nat) (e r : Row)
    (hne : r.id ≠ e.id) : classifyRowStep oracle now e r = r := by
  unfold classifyRowStep
  cases oracle e with
  | ok out =>
    rcases out with ⟨i, sig, rs⟩
    simp [hne]
  | error msg => simp [hne]

/-- Folding per-element store maps is mapping the per-row fold. -/
theorem foldl_map_general (g : Row → Row → Row) (l : List Row) (s : Store) :
    l.foldl (fun st e => st.map (g e)) s =
      s.map (fun r => l.foldl (fun r e => g e r) r) := by
  induction l generalizing s with
  | nil => simp
  | cons a t ih =>
    rw [List.foldl_cons, ih, List.map_map]
    rfl

/-- The batch loop body equals a store map of the per-row step. -/
theorem process_step_eq (oracle : Oracle) (now : Nat) (st : Store) (e : Row) :
    (match oracle e with
     | .ok (i, sig, r) => update_entry_classification st e.id i sig r now
     | .error msg =>
       update_entry_classification st e.id none false
         ("Classification error: " ++ msg) now) =
    st.map (classifyRowStep oracle now e) := by
  cases h : oracle e with
  | ok out =>
    rcases out with ⟨i, sig, r⟩
    unfold update_entry_classification
    dsimp only
    congr 1
    funext r2
    simp [classifyRowStep, h]
  | error msg =>
    unfold update_entry_classification
    dsimp only
    congr 1
    funext r2
    simp [classifyRowStep, h]

/-- The final store of a batch run is a single map over the starting store. -/
theorem process_store_eq_map (oracle : Oracle) (s : Store) (pa : Option Nat)
    (lim now : Nat) :
    (process_unclassified_entries oracle s pa lim now).1 =
      s.map (fun r => (get_unprocessed_entries s pa lim).foldl
        (fun r e => classifyRowStep oracle now e r) r) := by
  unfold process_unclassified_entries
  have hfn : (fun (st : Store) (e : Row) =>
      match oracle e with
      | .ok (i, sig, r) => update_entry_classification st e.id i sig r now
      | .error msg =>
        update_entry_classification st e.id none false
          ("Classification error: " ++ msg) now) =
      (fun st e => st.map (classifyRowStep oracle now e)) := by
    funext st e
    exact process_step_eq oracle now st e
  rw [hfn]
  exact foldl_map_general _ _ _

/-- Folding the per-row step over a batch whose entries all have a different
id leaves the row unchanged. -/
theorem foldl_rowstep_skip (oracle : Oracle) (now : Nat) (l : List Row)
    (r : Row) (h : ∀ e ∈ l, r.id ≠ e.id) :
    l.foldl (fun r e => classifyRowStep oracle now e r) r = r := by
  induction l with
  | nil => rfl
  | cons a t ih =>
    rw [List.foldl_cons, classifyRowStep_ne oracle now a r (h a (List.mem_cons_self a t))]
    exact ih (fun e he => h e (List.mem_cons_of_mem a he))

/-- Folding the per-row step over a batch with pairwise distinct ids, on a
row whose id matches one batch element, applies exactly that element's step. -/
theorem foldl_rowstep_hit (oracle : Oracle) (now : Nat) (l : List Row)
    (e : Row) (he : e ∈ l) (hdist : l.Pairwise (fun a b => a.id ≠ b.id))
    (r : Row) (hr : r.id = e.id) :
    l.foldl (fun r e => classifyRowStep oracle now e r) r =
      classifyRowStep oracle now e r := by
  induction l with
  | nil => cases he
  | cons a t ih =>
    rcases List.pairwise_cons.1 hdist with ⟨ha, ht⟩
    rcases List.mem_cons.1 he with rfl | het
    · rw [List.foldl_cons]
      refine foldl_rowstep_skip oracle now t _ (fun e2 h2 => ?_)
      rw [classifyRowStep_id, hr]
      exact ha e2 h2
    · rw [List.foldl_cons, classifyRowStep_ne oracle now a r
        (by rw [hr]; exact fun hcontra => (ha e het) hcontra.symm)]
      exact ih het ht

/-- A pulled batch inherits pairwise distinct ids from the store. -/
theorem batch_ids_distinct (s : Store) (pa : Option Nat) (lim : Nat)
    (h : IdsDistinct s) :
    (get_unprocessed_entries s pa lim).Pairwise (fun a b => a.id ≠ b.id) := by
  unfold get_unprocessed_entries
  refine List.Pairwise.sublist (List.take_sublist _ _) ?_
  have hperm := List.perm_insertionSort rowLe (s.filter (eligible pa))
  have hfilter : (s.filter (eligible pa)).Pairwise (fun a b => a.id ≠ b.id) :=
    List.Pairwise.sublist (List.filter_sublist _) h
  exact (hperm.pairwise_iff (fun hab hba => hab hba.symm)).2 hfilter

/-- C1. A batch run of `process_unclassified_entries` isolates failures: it
returns the number of entries pulled (attempted, not succeeded), and every
pulled entry — whether its classification returned an outcome or raised —
ends in the final store with `processed_at` stamped; a raised error is
persisted as the classify-failed outcome (`is_signal = false`, reasoning
carrying the `Classification error: ` marker). -/
theorem process_unclassified_isolates_failures (oracle : Oracle) (s : Store)
    (pa : Option Nat) (lim now : Nat) (hids : IdsDistinct s) :
    (process_unclassified_entries oracle s pa lim now).2 =
      (get_unprocessed_entries s pa lim).length ∧
    ∀ e ∈ get_unprocessed_entries s pa lim,
      (match oracle e with
       | .ok (i, sig, rs) =>
         { e with
           interest := i
           is_signal := some sig
           reasoning := some rs
           processed_at := some now }
       | .error msg =>
         { e with
           interest := none
           is_signal := some false
           reasoning := some ("Classification error: " ++ msg)
           processed_at := some now } : Row)
        ∈ (process_unclassified_entries oracle s pa lim now).1 := by
  refine ⟨rfl, ?_⟩
  intro e he
  have hes : e ∈ s := by
    have hrl : e ∈ List.insertionSort rowLe (s.filter (eligible pa)) :=
      List.take_subset _ _ he
    have hrf : e ∈ s.filter (eligible pa) :=
      (List.perm_insertionSort rowLe _).mem_iff.1 hrl
    exact (List.mem_filter.1 hrf).1
  have hdist := batch_ids_distinct s pa lim hids
  rw [process_store_eq_map]
  refine List.mem_map.2 ⟨e, hes, ?_⟩
  rw [foldl_rowstep_hit oracle now _ e he hdist e rfl]
  unfold classifyRowStep
  cases oracle e with
  | ok out =>
    rcases out with ⟨i, sig, rs⟩
    simp
  | error msg => simp

/-- Witness for C1: a two-row backlog where the first entry's classification
raises and the second succeeds; the run still reports two attempted. -/
theorem process_unclassified_isolates_failures_witness :
    (process_unclassified_entries
      (fun r => if r.id == 1 then .error "boom" else .ok (some "ai", true, "• good"))
      [mkRow 1 10 (some 5) 1 none none, mkRow 2 11 (some 6) 2 none none]
      none 10 9).2 =
    (get_unprocessed_entries
      [mkRow 1 10 (some 5) 1 none none, mkRow 2 11 (some 6) 2 none none]
      none 10).length :=
  (process_unclassified_isolates_failures
    (fun r => if r.id == 1 then .error "boom" else .ok (some "ai", true, "• good"))
    [mkRow 1 10 (some 5) 1 none none, mkRow 2 11 (some 6) 2 none none]
    none 10 9 (by decide)).1

/-- Lookup by id commutes with mapping an id-preserving row function. -/
theorem find_map_idpres (g : Row → Row) (hg : ∀ r, (g r).id = r.id)
    (s : Store) (eid : Nat) :
    (s.map g).find? (fun r => r.id == eid) =
      (s.find? (fun r => r.id == eid)).map g := by
  induction s with
  | nil => rfl
  | cons a t ih =>
    simp only [List.map_cons, List.find?_cons, hg]
    cases hm : (a.id == eid) with
    | true => rfl
    | false => exact ih

/-- C9 (amended). `reprocess` errors with NotFound on an unknown id, leaving
the store unchanged; for a stored entry whose classification call returns an
outcome (including the parse-failure outcome, which the parser returns
rather than raises), the entry is re-persisted with `processed_at` stamped
and the outcome is returned; but when the classification call itself raises,
the error propagates after the clear, leaving the entry unclassified
(`processed_at` null) until a later scheduled batch picks it up. -/
theorem reprocess_entry_spec (oracle : Oracle) (s : Store) (eid now : Nat) :
    (get_entry s eid = none →
      reprocess_entry oracle s eid now = (s, .error .notFound)) ∧
    (∀ e i sig rs, get_entry s eid = some e → oracle e = .ok (i, sig, rs) →
      reprocess_entry oracle s eid now =
        (update_entry_classification (clear_entry_classification s eid)
          eid i sig rs now,
         .ok { e with
                interest := i
                is_signal := some sig
                reasoning := some rs
                processed_at := some now })) ∧
    (∀ e msg, get_entry s eid = some e → oracle e = .error msg →
      reprocess_entry oracle s eid now =
        (clear_entry_classification s eid, .error (.uncaught msg))) := by
  refine ⟨?_, ?_, ?_⟩
  · intro hget
    unfold reprocess_entry
    rw [hget]
  · intro e i sig rs hget horacle
    have hget' : List.find? (fun r => r.id == eid) s = some e := hget
    have hid0 := List.find?_some hget'
    have hid : (e.id == eid) = true := by simpa using hid0
    have hmm : update_entry_classification (clear_entry_classification s eid)
        eid i sig rs now =
        s.map (fun r =>
          if r.id == eid then
            { r with
              interest := i
              is_signal := some sig
              reasoning := some rs
              processed_at := some now }
          else r) := by
      unfold update_entry_classification clear_entry_classification
      rw [List.map_map]
      congr 1
      funext r
      by_cases hm : r.id = eid <;> simp [hm]
    have hfind : get_entry (update_entry_classification
        (clear_entry_classification s eid) eid i sig rs now) eid =
        some { e with
                interest := i
                is_signal := some sig
                reasoning := some rs
                processed_at := some now } := by
      rw [hmm]
      unfold get_entry
      rw [find_map_idpres _ (fun r => by by_cases hm : r.id = eid <;> simp [hm])]
      rw [hget']
      have hideq : e.id = eid := by simpa using hid
      simp [hideq]
    unfold reprocess_entry
    rw [hget]
    dsimp only
    rw [horacle]
    dsimp only
    rw [hfind]
  · intro e msg hget horacle
    unfold reprocess_entry
    rw [hget]
    dsimp only
    rw [horacle]

/-- Witness for C9 at a concrete store: the success path re-persists. -/
theorem reprocess_entry_spec_witness :
    reprocess_entry (fun _ => .ok (some "ai", true, "• good"))
      [mkRow 1 10 (some 5) 1 (some 3) (some false)] 1 9 =
      (update_entry_classification (clear_entry_classification
        [mkRow 1 10 (some 5) 1 (some 3) (some false)] 1) 1
        (some "ai") true "• good" 9,
       .ok { mkRow 1 10 (some 5) 1 (some 3) (some false) with
              interest := some "ai"
              is_signal := some true
              reasoning := some "• good"
              processed_at := some 9 }) :=
  (reprocess_entry_spec (fun _ => .ok (some "ai", true, "• good"))
    [mkRow 1 10 (some 5) 1 (some 3) (some false)] 1 9).2.1
    (mkRow 1 10 (some 5) 1 (some 3) (some false))
    (some "ai") true "• good" (by decide) rfl

/-- Counterexample for C9 as stated: when the oracle call raises during a
reprocess of a stored, previously classified entry, the route propagates the
error and the entry is left with `processed_at` null — not persisted as a
classify-failed outcome. -/
theorem reprocess_entry_failure_leaves_unclassified :
    (reprocess_entry (fun _ => .error "API connection error")
      [mkRow 1 10 (some 5) 1 (some 3) (some false)] 1 9).2 =
      .error (.uncaught "API connection error") ∧
    (reprocess_entry (fun _ => .error "API connection error")
      [mkRow 1 10 (some 5) 1 (some 3) (some false)] 1 9).1 =
      [mkRow 1 10 (some 5) 1 none none] := by
  constructor
  · rfl
  · rfl

/-- C2 (amended). For every oracle response whose (fence-stripped) text
fails JSON decoding, the parser returns the parse-error outcome — null
interest, `is_signal = false`, reasoning carrying the parse-error marker —
and raises nothing; totality does NOT extend to responses that decode to
valid non-object JSON, where `.get` raises an uncaught `AttributeError`
(see the counterexample). -/
theorem parse_total_on_decode_failure (content m : String)
    (h : jsonDecode (stripFence content) = .error m) :
    parse_classification_response content =
      .ok (.null, false, .str ("Failed to parse classification: " ++ m)) := by
  unfold parse_classification_response afterDecode
  rw [h]

/-- Witness for C2 at the spec's concrete non-JSON response. -/
theorem parse_total_on_decode_failure_witness :
    parse_classification_response "I cannot comply." =
      .ok (.null, false,
        .str ("Failed to parse classification: " ++ "Expecting value")) :=
  parse_total_on_decode_failure "I cannot comply." "Expecting value" rfl

/-- Counterexample for C2 as stated: the response `[1]` decodes to valid
JSON that is not an object, and the parser raises an uncaught
`AttributeError` at `data.get` instead of yielding the parse-error
outcome. -/
theorem parse_nonobject_json_raises :
    parse_classification_response "[1]" = .error (.attributeError "get") ∧
    ∀ m : String, parse_classification_response "[1]" ≠
      .ok (.null, false, .str m) :=
  ⟨rfl, fun _ h => Except.noConfusion h⟩

/-- The interest component of a successful field coercion is `interestOf`. -/
theorem classifyFields_ok_parts (kvs : List (String × PyVal)) (i : PyVal)
    (b : Bool) (r : PyVal) (hok : classifyFields (.obj kvs) = .ok (i, b, r)) :
    i = interestOf kvs ∧ b = isSignalOf kvs := by
  unfold classifyFields at hok
  dsimp only at hok
  cases hrs : reasoningStep (reasoningVal kvs) with
  | error e => rw [hrs] at hok; cases hok
  | ok r2 =>
    rw [hrs] at hok
    rcases hok with ⟨⟩
    exact ⟨rfl, rfl⟩

/-- C3 (amended). For a response decoding to a JSON object: an `interest`
value that is the literal token `"null"` parses to null even when a legacy
`topic` field is present; an empty-string `interest` parses to null only
when no `topic` fallback applies; because the fallback is Python `or`, a
present-but-empty (falsy) `interest` falls back to a present `topic` value
instead of yielding null. -/
theorem interest_null_and_topic_fallback (kvs : List (String × PyVal))
    (i : PyVal) (b : Bool) (r : PyVal)
    (hok : classifyFields (.obj kvs) = .ok (i, b, r)) :
    (pyGet kvs "interest" = some (.str "null") → i = .null) ∧
    (pyGet kvs "interest" = some (.str "") → pyGet kvs "topic" = none →
      i = .null) ∧
    (∀ t, pyGet kvs "interest" = some (.str "") →
      pyGet kvs "topic" = some (.str t) → t ≠ "null" → t ≠ "" →
      i = .str t) := by
  obtain ⟨hi, -⟩ := classifyFields_ok_parts kvs i b r hok
  subst hi
  refine ⟨?_, ?_, ?_⟩
  · intro hI
    simp [interestOf, hI, truthy, pyEqStr]
  · intro hI hT
    simp [interestOf, hI, hT, truthy, pyEqStr]
  · intro t hI hT ht1 ht2
    simp [interestOf, hI, hT, truthy, pyEqStr, ht1, ht2]

/-- Witness for C3: the topic fallback firing on a present-but-empty
interest. -/
theorem interest_null_and_topic_fallback_witness :
    classifyFields (.obj [("interest", .str ""), ("topic", .str "ai"),
      ("reasoning", .str "• x")]) = .ok (.str "ai", false, .str "• x") ∧
    PyVal.str "ai" = PyVal.str "ai" :=
  ⟨rfl,
   (interest_null_and_topic_fallback
      [("interest", .str ""), ("topic", .str "ai"), ("reasoning", .str "• x")]
      (.str "ai") false (.str "• x") rfl).2.2 "ai" rfl rfl
      (by decide) (by decide)⟩

/-- Counterexample for C3 as stated: with `interest` present but empty and a
`topic` field present, the parsed interest is the topic value, not null. -/
theorem interest_empty_with_topic_not_null :
    parse_classification_response
      "\x7b\"interest\": \"\", \"topic\": \"ai\", \"is_signal\": false, \"reasoning\": \"• x\"\x7d" =
      .ok (.str "ai", false, .str "• x") ∧
    PyVal.str "ai" ≠ PyVal.null :=
  ⟨rfl, fun h => PyVal.noConfusion h⟩

/-- Finding the closing `>` consumes at least one character. -/
theorem goGt_length {l r : List Char} (h : goGt l = some r) :
    r.length < l.length := by
  induction l with
  | nil => cases h
  | cons c t ih =>
    unfold goGt at h
    by_cases hc : c = '>'
    · rw [if_pos hc] at h
      cases h
      simp
    · rw [if_neg hc] at h
      exact Nat.lt_trans (ih h) (by simp)

/-- A matched tag consumes at least one character. -/
theorem tagEnd_length {l r : List Char} (h : tagEnd l = some r) :
    r.length < l.length := by
  cases l with
  | nil => cases h
  | cons c t =>
    unfold tagEnd at h
    dsimp only at h
    by_cases hc : c = '>'
    · rw [if_pos hc] at h
      cases h
    · rw [if_neg hc] at h
      exact Nat.lt_trans (goGt_length h) (by simp)

/-- Tag stripping never lengthens the text (each tag becomes one space). -/
theorem stripTagsF_length (fuel : Nat) :
    ∀ l : List Char, (stripTagsF fuel l).length ≤ l.length := by
  induction fuel with
  | zero => intro l; simp [stripTagsF]
  | succ n ih =>
    intro l
    cases l with
    | nil => simp [stripTagsF]
    | cons c t =>
      unfold stripTagsF
      by_cases hc : c = '<'
      · rw [if_pos hc]
        cases hte : tagEnd t with
        | some rest =>
          simpa using Nat.succ_le_succ
            (Nat.le_trans (ih rest) (Nat.le_of_lt (tagEnd_length hte)))
        | none => simpa using Nat.succ_le_succ (ih t)
      · rw [if_neg hc]
        simpa using Nat.succ_le_succ (ih t)

/-- Whitespace collapsing never lengthens the text. -/
theorem collapseWs_length : ∀ l : List Char, (collapseWs l).length ≤ l.length := by
  intro l
  induction l with
  | nil => simp [collapseWs]
  | cons a t ih =>
    cases t with
    | nil => by_cases ha : pySpace a <;> simp [collapseWs, ha]
    | cons b t2 =>
      unfold collapseWs
      by_cases hab : pySpace a ∧ pySpace b
      · rw [if_pos hab]
        exact Nat.le_trans ih (by simp)
      · rw [if_neg hab]
        simpa using Nat.succ_le_succ ih

/-- Stripping never lengthens the text. -/
theorem stripList_length (l : List Char) : (stripList l).length ≤ l.length := by
  unfold stripList
  rw [List.length_reverse]
  refine Nat.le_trans (List.Sublist.length_le (List.dropWhile_sublist _)) ?_
  rw [List.length_reverse]
  exact List.Sublist.length_le (List.dropWhile_sublist _)

/-- Truncation commutes into emptiness: taking 3000 characters preserves
whether the text is empty. -/
theorem take3000_isEmpty (l : List Char) : (l.take 3000).isEmpty = l.isEmpty := by
  cases l with
  | nil => rfl
  | cons a t =>
    show ((a :: t).take (2999 + 1)).isEmpty = _
    rw [List.take_succ_cons]
    rfl

/-- C8. The oracle text is built from at most the first 3000 characters of
the content: two entries agreeing on every header field and on the first
3000 characters of their contents format identically (truncation happens
BEFORE tag stripping and whitespace collapsing), and the processed content
is deterministically bounded by 3000 characters regardless of tag
density. -/
theorem format_truncates_before_stripping (e e' : Row) (c c' : String)
    (hc : e.content = some c) (hc' : e'.content = some c')
    (htake : c.data.take 3000 = c'.data.take 3000)
    (hfeed : e.feed_name = e'.feed_name) (htitle : e.title = e'.title)
    (hurl : e.url = e'.url) (hauthor : e.author = e'.author) :
    format_entry_for_classification e = format_entry_for_classification e' ∧
    (processContent c).data.length ≤ 3000 := by
  constructor
  · have hpc : processContent c = processContent c' := by
      unfold processContent
      rw [htake]
    have hempty : c.data.isEmpty = c'.data.isEmpty := by
      rw [← take3000_isEmpty c.data, ← take3000_isEmpty c'.data, htake]
    unfold format_entry_for_classification
    rw [hc, hc', hfeed, htitle, hurl, hauthor]
    simp only [optTruthy, Option.getD_some]
    rw [hempty, hpc]
  · show (stripList (collapseWs (stripTags (c.data.take 3000)))).length ≤ 3000
    refine Nat.le_trans (stripList_length _) ?_
    refine Nat.le_trans (collapseWs_length _) ?_
    refine Nat.le_trans (stripTagsF_length _ _) ?_
    exact List.length_take_le 3000 c.data

/-- Witness for C8: a 5000-character content formats as its 3000-character
truncation. -/
theorem format_truncates_before_stripping_witness :
    format_entry_for_classification
      { mkRow 1 10 (some 5) 1 none none with
        content := some ⟨List.replicate 5000 'a'⟩ } =
    format_entry_for_classification
      { mkRow 1 10 (some 5) 1 none none with
        content := some ⟨List.replicate 3000 'a'⟩ } ∧
    (processContent ⟨List.replicate 5000 'a'⟩).data.length ≤ 3000 :=
  format_truncates_before_stripping
    { mkRow 1 10 (some 5) 1 none none with
      content := some ⟨List.replicate 5000 'a'⟩ }
    { mkRow 1 10 (some 5) 1 none none with
      content := some ⟨List.replicate 3000 'a'⟩ }
    ⟨List.replicate 5000 'a'⟩ ⟨List.replicate 3000 'a'⟩ rfl rfl
    (by rw [List.take_replicate, List.take_replicate]; congr 1) rfl rfl rfl rfl

theorem pySpace_tick : pySpace tick = false := rfl

theorem pySpace_lbrace : pySpace lbrace = false := rfl

/-- Three backticks are recognized at a triple-tick head. -/
theorem threeTicks_cons (l : List Char) :
    threeTicks (tick :: tick :: tick :: l) = true := by
  have hd : "```".data = [tick, tick, tick] := rfl
  unfold threeTicks
  rw [hd]
  simp [List.isPrefixOf]

/-- Three backticks are not recognized where the head is no backtick. -/
theorem threeTicks_not_tick {c : Char} (hc : c ≠ tick) (l : List Char) :
    threeTicks (c :: l) = false := by
  have hd : "```".data = [tick, tick, tick] := rfl
  unfold threeTicks
  rw [hd]
  simp [List.isPrefixOf, beq_iff_eq, Ne.symm hc]

/-- The anchored regex fails at a position whose head is no backtick. -/
theorem matchFenceAt_not_tick {c : Char} (hc : c ≠ tick) (l : List Char) :
    matchFenceAt (c :: l) = none := by
  unfold matchFenceAt
  rw [threeTicks_not_tick hc]
  simp

/-- One scan step over a position where the anchored regex fails. -/
theorem searchFence_cons_none {c : Char} {rest : List Char}
    (h : matchFenceAt (c :: rest) = none) :
    searchFence (c :: rest) = searchFence rest := by
  conv_lhs => unfold searchFence
  rw [h]

/-- The leftmost scan passes over a backtick-free prefix. -/
theorem searchFence_append {pre : List Char} (hpre : ∀ c ∈ pre, c ≠ tick)
    (l : List Char) : searchFence (pre ++ l) = searchFence l := by
  induction pre with
  | nil => rfl
  | cons p pre' ih =>
    show searchFence (p :: (pre' ++ l)) = searchFence l
    rw [searchFence_cons_none
      (matchFenceAt_not_tick (hpre p (List.mem_cons_self p pre')) (pre' ++ l))]
    exact ih (fun c h => hpre c (List.mem_cons_of_mem p h))

/-- The guard `"```" in content` holds when a fence occurs anywhere. -/
theorem hasTicks_append (pre l : List Char) :
    hasTicks (pre ++ tick :: tick :: tick :: l) = true := by
  induction pre with
  | nil =>
    rw [List.nil_append]
    unfold hasTicks
    rw [threeTicks_cons]
    rfl
  | cons p pre' ih =>
    show hasTicks (p :: (pre' ++ tick :: tick :: tick :: l)) = true
    unfold hasTicks
    rw [ih]
    simp

/-- Dropping whitespace passes over an all-whitespace block. -/
theorem dropWhile_append_ws {ws : List Char} (hws : ∀ c ∈ ws, pySpace c = true)
    (l : List Char) :
    List.dropWhile pySpace (ws ++ l) = List.dropWhile pySpace l := by
  induction ws with
  | nil => rfl
  | cons w ws' ih =>
    show List.dropWhile pySpace (w :: (ws' ++ l)) = _
    rw [List.dropWhile_cons]
    rw [hws w (List.mem_cons_self w ws')]
    simp only [if_true]
    exact ih (fun c h => hws c (List.mem_cons_of_mem w h))

/-- The non-greedy group scan stops exactly at the closing brace that is
followed by optional whitespace and a closing fence. -/
theorem findClose_spec (mid ws2 post : List Char)
    (hmid : ∀ c ∈ mid, c ≠ rbrace) (hws2 : ∀ c ∈ ws2, pySpace c = true) :
    findClose (mid ++ rbrace :: (ws2 ++ tick :: tick :: tick :: post)) =
      some mid := by
  induction mid with
  | nil =>
    show findClose (rbrace :: (ws2 ++ tick :: tick :: tick :: post)) = some []
    unfold findClose
    rw [dropWhile_append_ws hws2]
    rw [List.dropWhile_cons, pySpace_tick]
    simp only [if_false, Bool.false_eq_true]
    rw [threeTicks_cons]
    simp
  | cons c mid' ih =>
    show findClose (c :: (mid' ++ rbrace :: (ws2 ++ tick :: tick :: tick :: post))) = _
    unfold findClose
    rw [if_neg (fun h => (hmid c (List.mem_cons_self c mid')) h.1)]
    rw [ih (fun c2 h => hmid c2 (List.mem_cons_of_mem c h))]
    rfl

/-- The anchored regex at the fence start captures brace to brace. -/
theorem matchFenceAt_fence (ws mid ws2 post : List Char)
    (hws : ∀ c ∈ ws, pySpace c = true) (hmid : ∀ c ∈ mid, c ≠ rbrace)
    (hws2 : ∀ c ∈ ws2, pySpace c = true) :
    matchFenceAt (tick :: tick :: tick :: 'j' :: 's' :: 'o' :: 'n' ::
      (ws ++ lbrace :: (mid ++ rbrace :: (ws2 ++ tick :: tick :: tick :: post)))) =
      some (lbrace :: (mid ++ [rbrace])) := by
  unfold matchFenceAt
  rw [threeTicks_cons]
  have hjson : ("json".data.isPrefixOf ('j' :: 's' :: 'o' :: 'n' ::
      (ws ++ lbrace :: (mid ++ rbrace :: (ws2 ++ tick :: tick :: tick :: post))))) = true := by
    have hd : "json".data = ['j', 's', 'o', 'n'] := rfl
    rw [hd]
    simp [List.isPrefixOf]
  simp only [if_true, List.drop_succ_cons, List.drop_zero, eq_self_iff_true]
  rw [hjson]
  simp only [if_true, List.drop_succ_cons, List.drop_zero]
  rw [dropWhile_append_ws hws]
  rw [List.dropWhile_cons, pySpace_lbrace]
  simp only [Bool.false_eq_true, if_false, eq_self_iff_true, if_true]
  rw [findClose_spec mid ws2 post hmid hws2]
  rfl

/-- The fence-stripping step extracts the fenced JSON object. -/
theorem stripFence_fence (content : String) (pre ws mid ws2 post : List Char)
    (hcontent : content.data = pre ++ tick :: tick :: tick :: 'j' :: 's' :: 'o' :: 'n' ::
      (ws ++ lbrace :: (mid ++ rbrace :: (ws2 ++ tick :: tick :: tick :: post))))
    (hpre : ∀ c ∈ pre, c ≠ tick) (hws : ∀ c ∈ ws, pySpace c = true)
    (hmid : ∀ c ∈ mid, c ≠ rbrace) (hws2 : ∀ c ∈ ws2, pySpace c = true) :
    stripFence content = ⟨lbrace :: (mid ++ [rbrace])⟩ := by
  unfold stripFence
  rw [hcontent]
  rw [hasTicks_append]
  simp only [if_true]
  rw [searchFence_append hpre]
  unfold searchFence
  rw [matchFenceAt_fence ws mid ws2 post hws hmid hws2]

/-- A list-joined reasoning is empty or bullet-led, so the bullet-ensuring
step keeps it unchanged. -/
theorem reasoningStep_bulletJoin (items : List PyVal) :
    reasoningStep (.str (bulletJoin items)) = .ok (.str (bulletJoin items)) := by
  cases items with
  | nil => rfl
  | cons x xs =>
    unfold reasoningStep
    dsimp only
    have hpre : ("•".data.isPrefixOf (bulletJoin (x :: xs)).data) = true := by
      have hdata : (bulletJoin (x :: xs)).data =
          joinNl (("• ".data ++ (pyStr x).data) :: xs.map (fun r => "• ".data ++ (pyStr r).data)) := rfl
      rw [hdata]
      have hjoin : ∃ t, joinNl (("• ".data ++ (pyStr x).data) ::
          xs.map (fun r => "• ".data ++ (pyStr r).data)) =
          ("• ".data ++ (pyStr x).data) ++ t := by
        cases hxs : xs.map (fun r => "• ".data ++ (pyStr r).data) with
        | nil => exact ⟨[], by simp [joinNl]⟩
        | cons y ys => exact ⟨'\n' :: joinNl (y :: ys), rfl⟩
      rcases hjoin with ⟨t, ht⟩
      rw [ht]
      have hb : "•".data = ['•'] := rfl
      have hbs : "• ".data = ['•', ' '] := rfl
      rw [hb, hbs]
      simp [List.isPrefixOf]
    rw [hpre]
    simp

/-- C7. The parser prefers fenced content: for every response embedding a
`json`-tagged fenced code block around a JSON object (backtick-free prefix,
whitespace around the object, no closing brace inside it), the parse result
is exactly the field coercion of the decoded fenced object — the
surrounding prose is ignored; and when the object carries a list-valued
`reasoning`, the parsed reasoning is the newline-joined, bullet-prefixed
rendering of the list items. -/
theorem parse_prefers_fenced (content : String)
    (pre ws mid ws2 post : List Char) (v : PyVal)
    (hcontent : content.data = pre ++ tick :: tick :: tick :: 'j' :: 's' :: 'o' :: 'n' ::
      (ws ++ lbrace :: (mid ++ rbrace :: (ws2 ++ tick :: tick :: tick :: post))))
    (hpre : ∀ c ∈ pre, c ≠ tick) (hws : ∀ c ∈ ws, pySpace c = true)
    (hmid : ∀ c ∈ mid, c ≠ rbrace) (hws2 : ∀ c ∈ ws2, pySpace c = true)
    (hdec : jsonDecode ⟨lbrace :: (mid ++ [rbrace])⟩ = .ok v) :
    parse_classification_response content = afterDecode (.ok v) ∧
    ∀ kvs items, v = .obj kvs → pyGet kvs "reasoning" = some (.arr items) →
      parse_classification_response content =
        .ok (interestOf kvs, isSignalOf kvs, .str (bulletJoin items)) := by
  have hsf := stripFence_fence content pre ws mid ws2 post hcontent hpre hws hmid hws2
  constructor
  · unfold parse_classification_response
    rw [hsf, hdec]
  · rintro kvs items rfl hreason
    unfold parse_classification_response
    rw [hsf, hdec]
    unfold afterDecode classifyFields
    dsimp only
    have hrv : reasoningVal kvs = .str (bulletJoin items) := by
      unfold reasoningVal
      rw [hreason]
      rfl
    rw [hrv, reasoningStep_bulletJoin]

/-- Witness for C7: the spec's fenced example parses to
`interest="ai", is_signal=true, reasoning="• point one\n• point two"`. -/
theorem parse_prefers_fenced_witness :
    parse_classification_response
      "Here is my answer:\n```json\n\x7b\"interest\": \"ai\", \"is_signal\": true, \"reasoning\": [\"point one\", \"point two\"]\x7d\n```" =
      .ok (.str "ai", true, .str "• point one\n• point two") := by
  have h := (parse_prefers_fenced
    "Here is my answer:\n```json\n\x7b\"interest\": \"ai\", \"is_signal\": true, \"reasoning\": [\"point one\", \"point two\"]\x7d\n```"
    ("Here is my answer:\n".data) ['\n']
    ("\"interest\": \"ai\", \"is_signal\": true, \"reasoning\": [\"point one\", \"point two\"]".data)
    ['\n'] []
    (PyVal.obj [("interest", .str "ai"), ("is_signal", .bool true),
      ("reasoning", .arr [.str "point one", .str "point two"])])
    (by decide) (by decide) (by decide) (by decide) (by decide) rfl).2
    [("interest", .str "ai"), ("is_signal", .bool true),
     ("reasoning", .arr [.str "point one", .str "point two"])]
    [.str "point one", .str "point two"] rfl rfl
  exact h.trans rfl

end Wiresum
